import Mathlib

/-!
Verification of the ingestion / retrieval / answering core of the
code-crafters-hackrx-system repository, as a shallow embedding in Lean.

Sources embedded:
  * app/services/ingestion.py   (chunker, format dispatch, temp-file handling,
                                 email extraction)
  * app/services/embeddings.py  (upsert batching)
  * app/services/retrieval.py   (snippet extraction from search hits)
  * main.py                     (trivia routing, ingestion ledger gate,
                                 concurrent answer gathering)

External collaborators (HTTP transport, Pinecone, the tokenizer, the LLM)
are modelled as parameters or outcome values; all control flow and data
shaping of the repository code is embedded directly.
-/

/-! ## Chunker (ingestion.py, `_chunk_and_upsert`)

Configuration constants from ingestion.py.  `OVERLAP = int(0.1 * 2000)`;
the float product `0.1 * 2000` rounds to exactly `200.0` in binary64,
so `OVERLAP = 200`.
-/

def CHUNK_TOKEN_SIZE : Nat := 2000

def OVERLAP : Nat := 200

/-- Python `range(0, stop, step)` for `step > 0`: the list
`[0, step, 2*step, ...]` of all multiples of `step` below `stop`,
of length `ceil(stop / step)`. -/
def pyRange (stop step : Nat) : List Nat :=
  (List.range ((stop + step - 1) / step)).map (fun k => k * step)

/-- One chunk record as built by `_chunk_and_upsert`:
`{"id": f"{basename}::chunk_{i}", "text": enc.decode(chunk)}`. -/
structure ChunkRecord where
  id : String
  text : String
deriving DecidableEq

/-- The token-window loop of `_chunk_and_upsert`:
`for i in range(0, len(tokens), CHUNK_TOKEN_SIZE - OVERLAP): chunk = tokens[i:i+CHUNK_TOKEN_SIZE]`.
Each element pairs the start offset `i` with the token slice. -/
def chunkWindows (tokens : List Nat) : List (Nat × List Nat) :=
  (pyRange tokens.length (CHUNK_TOKEN_SIZE - OVERLAP)).map
    (fun i => (i, (tokens.drop i).take CHUNK_TOKEN_SIZE))

/-- Whitespace normalization `" ".join(text.split())`: Python `str.split()`
splits on whitespace runs and discards empty fields. -/
def normalizeWs (text : String) : String :=
  String.intercalate " " ((text.split Char.isWhitespace).filter (fun s => s ≠ ""))

/-- `_chunk_and_upsert` (ingestion.py): normalize whitespace, tokenize with the
external tokenizer `encode`, slice into overlapping windows, decode each window
back to text with `decode`, and build the records handed to `upsert_chunks`.
The tokenizer pair (`tiktoken` in the source) is an external collaborator and
is taken as a parameter. -/
def _chunk_and_upsert (encode : String → List Nat) (decode : List Nat → String)
    (text basename : String) : List ChunkRecord :=
  (chunkWindows (encode (normalizeWs text))).map
    (fun p => ⟨basename ++ "::chunk_" ++ toString p.1, decode p.2⟩)

lemma chunkWindows_eq (tokens : List Nat) :
    chunkWindows tokens
      = (List.range ((tokens.length + 1799) / 1800)).map
          (fun k => (k * 1800, (tokens.drop (k * 1800)).take 2000)) := by
  simp [chunkWindows, pyRange, CHUNK_TOKEN_SIZE, OVERLAP, List.map_map, Function.comp]

lemma chunkWindows_length (tokens : List Nat) :
    (chunkWindows tokens).length = (tokens.length + 1799) / 1800 := by
  simp [chunkWindows_eq]

lemma chunkWindow_suffix_eq (tokens : List Nat) (j : Nat) :
    ((tokens.drop (j * 1800)).take 2000).drop 1800
      = ((tokens.drop ((j + 1) * 1800)).take 2000).take 200 := by
  have h1 : (j + 1) * 1800 = j * 1800 + 1800 := by ring
  rw [List.drop_take, List.drop_drop, List.take_take]
  norm_num [h1]

/-- Claim C1: for every input text, after whitespace normalization and
tokenization the chunker produces windows starting at offsets
`0, 1800, 3600, ...` (step `W − O` with `W = 2000`, `O = 200`), each of token
length at most `W`; each window except possibly around the final one is full
and shares exactly its last `O` tokens with the next window's first `O`
tokens; every token position of the input is covered by some window; each
record gets id `"<basename>::chunk_<startOffset>"`; and empty input yields
zero chunks. -/
theorem chunker_window_structure (encode : String → List Nat)
    (decode : List Nat → String) (text basename : String) :
    ((_chunk_and_upsert encode decode text basename).map ChunkRecord.id
       = (pyRange (encode (normalizeWs text)).length 1800).map
           (fun i => basename ++ "::chunk_" ++ toString i))
    ∧ (∀ tokens : List Nat,
        (chunkWindows tokens).length = (tokens.length + 1799) / 1800
        ∧ (chunkWindows tokens).map Prod.fst
            = (List.range ((tokens.length + 1799) / 1800)).map (fun k => k * 1800)
        ∧ (∀ p ∈ chunkWindows tokens, p.2.length ≤ CHUNK_TOKEN_SIZE)
        ∧ (∀ j, j < (tokens.length + 1799) / 1800 →
             (chunkWindows tokens)[j]?
               = some (j * 1800, (tokens.drop (j * 1800)).take 2000))
        ∧ (∀ j, ((tokens.drop (j * 1800)).take 2000).drop 1800
             = ((tokens.drop ((j + 1) * 1800)).take 2000).take OVERLAP)
        ∧ (∀ j, j + 2 < (tokens.length + 1799) / 1800 →
             ((tokens.drop (j * 1800)).take 2000).length = CHUNK_TOKEN_SIZE
             ∧ (((tokens.drop (j * 1800)).take 2000).drop 1800).length = OVERLAP)
        ∧ (∀ k, k < tokens.length →
             ∃ p ∈ chunkWindows tokens, p.1 ≤ k ∧ p.2[k - p.1]? = tokens[k]?))
    ∧ chunkWindows [] = [] := by
  refine ⟨?_, ?_, ?_⟩
  · simp [_chunk_and_upsert, chunkWindows, CHUNK_TOKEN_SIZE, OVERLAP,
      List.map_map, Function.comp]
  · intro tokens
    refine ⟨chunkWindows_length tokens, ?_, ?_, ?_, ?_, ?_, ?_⟩
    · simp [chunkWindows_eq, List.map_map, Function.comp]
    · intro p hp
      rw [chunkWindows_eq] at hp
      simp only [List.mem_map, List.mem_range] at hp
      obtain ⟨k, _, rfl⟩ := hp
      show ((tokens.drop (k * 1800)).take 2000).length ≤ CHUNK_TOKEN_SIZE
      simp only [CHUNK_TOKEN_SIZE]
      exact List.length_take_le 2000 (tokens.drop (k * 1800))
    · intro j hj
      rw [chunkWindows_eq, List.getElem?_map, List.getElem?_range hj]
      rfl
    · intro j
      simp only [OVERLAP]
      exact chunkWindow_suffix_eq tokens j
    · intro j hj
      have hn : j * 1800 + 2000 ≤ tokens.length := by omega
      constructor
      · simp [CHUNK_TOKEN_SIZE, List.length_take, List.length_drop]
        omega
      · simp [OVERLAP, List.length_drop, List.length_take]
        omega
    · intro k hk
      refine ⟨(k / 1800 * 1800, (tokens.drop (k / 1800 * 1800)).take 2000), ?_, ?_, ?_⟩
      · rw [chunkWindows_eq]
        exact List.mem_map.mpr ⟨k / 1800, List.mem_range.mpr (by omega), rfl⟩
      · omega
      · have hd : k - k / 1800 * 1800 < 2000 := by omega
        rw [List.getElem?_take, if_pos hd, List.getElem?_drop]
        have : k / 1800 * 1800 + (k - k / 1800 * 1800) = k := by omega
        rw [this]
  · decide

/-- Witness for C1 at a concrete instantiation. -/
theorem chunker_window_structure_witness :
    ((_chunk_and_upsert (fun _ => []) (fun _ => "") "" "doc").map ChunkRecord.id
       = (pyRange 0 1800).map (fun i => "doc" ++ "::chunk_" ++ toString i))
    ∧ (∀ tokens : List Nat,
        (chunkWindows tokens).length = (tokens.length + 1799) / 1800
        ∧ (chunkWindows tokens).map Prod.fst
            = (List.range ((tokens.length + 1799) / 1800)).map (fun k => k * 1800)
        ∧ (∀ p ∈ chunkWindows tokens, p.2.length ≤ CHUNK_TOKEN_SIZE)
        ∧ (∀ j, j < (tokens.length + 1799) / 1800 →
             (chunkWindows tokens)[j]?
               = some (j * 1800, (tokens.drop (j * 1800)).take 2000))
        ∧ (∀ j, ((tokens.drop (j * 1800)).take 2000).drop 1800
             = ((tokens.drop ((j + 1) * 1800)).take 2000).take OVERLAP)
        ∧ (∀ j, j + 2 < (tokens.length + 1799) / 1800 →
             ((tokens.drop (j * 1800)).take 2000).length = CHUNK_TOKEN_SIZE
             ∧ (((tokens.drop (j * 1800)).take 2000).drop 1800).length = OVERLAP)
        ∧ (∀ k, k < tokens.length →
             ∃ p ∈ chunkWindows tokens, p.1 ≤ k ∧ p.2[k - p.1]? = tokens[k]?))
    ∧ chunkWindows [] = [] :=
  chunker_window_structure (fun _ => []) (fun _ => "") "" "doc"

/-! ## Embedding Upsert Batcher (embeddings.py, `upsert_chunks`)

`upsert_chunks` enriches each chunk record with the owning document locator
and submits slices of at most `MAX_BATCH = 96` records, in order, one
`upsert_records` call per slice.  The model returns the list of submitted
batches in submission order.
-/

def MAX_BATCH : Nat := 96

/-- One record as sent to the store:
`{"id": c["id"], "text": c["text"], "doc_url": source_url}`. -/
structure UpsertRecord where
  id : String
  text : String
  doc_url : String
deriving DecidableEq

/-- `upsert_chunks` (embeddings.py): the list of batches submitted to the
store collaborator, in submission order. -/
def upsert_chunks (chunks : List ChunkRecord) (source_url : String) :
    List (List UpsertRecord) :=
  (pyRange (chunks.map (fun c => UpsertRecord.mk c.id c.text source_url)).length
      MAX_BATCH).map
    (fun i =>
      ((chunks.map (fun c => UpsertRecord.mk c.id c.text source_url)).drop i).take
        MAX_BATCH)

lemma slices_flatten_aux (l : List UpsertRecord) (m : Nat) :
    ((List.range m).map (fun k => (l.drop (k * 96)).take 96)).flatten
      = l.take (m * 96) := by
  induction m with
  | zero => simp
  | succ m ih =>
      rw [List.range_succ, List.map_append, List.flatten_append, ih]
      have hms : (m + 1) * 96 = m * 96 + 96 := by ring
      simp [hms, List.take_add]

lemma slices_flatten (l : List UpsertRecord) :
    ((pyRange l.length 96).map (fun i => (l.drop i).take 96)).flatten = l := by
  rw [pyRange, List.map_map]
  have h1 : ((List.range ((l.length + 96 - 1) / 96)).map
      (fun k => (l.drop (k * 96)).take 96)).flatten
      = l.take (((l.length + 96 - 1) / 96) * 96) := slices_flatten_aux l _
  have h2 : l.length ≤ ((l.length + 96 - 1) / 96) * 96 := by omega
  calc ((List.range ((l.length + 96 - 1) / 96)).map
          ((fun i => (l.drop i).take 96) ∘ fun k => k * 96)).flatten
      = l.take (((l.length + 96 - 1) / 96) * 96) := h1
    _ = l := List.take_of_length_le h2

/-- Claim C5: for `M` chunk records the batcher issues exactly `⌈M/96⌉`
upsert calls, each batch holding at most 96 records, and concatenating the
batches in submission order yields the original record sequence, each record
enriched with the owning document locator. -/
theorem batcher_structure (chunks : List ChunkRecord) (source_url : String) :
    (upsert_chunks chunks source_url).length = (chunks.length + 95) / 96
    ∧ (∀ b ∈ upsert_chunks chunks source_url, b.length ≤ 96)
    ∧ (upsert_chunks chunks source_url).flatten
        = chunks.map (fun c => UpsertRecord.mk c.id c.text source_url) := by
  refine ⟨?_, ?_, ?_⟩
  · simp [upsert_chunks, pyRange, MAX_BATCH]
  · intro b hb
    simp only [upsert_chunks, pyRange, MAX_BATCH, List.map_map, List.mem_map,
      List.mem_range] at hb
    obtain ⟨k, _, rfl⟩ := hb
    exact List.length_take_le 96 _
  · have := slices_flatten (chunks.map (fun c => UpsertRecord.mk c.id c.text source_url))
    simpa [upsert_chunks, MAX_BATCH] using this

/-- Witness for C5 at a concrete instantiation. -/
theorem batcher_structure_witness :
    (upsert_chunks [ChunkRecord.mk "a::chunk_0" "t"] "u").length = (1 + 95) / 96
    ∧ (∀ b ∈ upsert_chunks [ChunkRecord.mk "a::chunk_0" "t"] "u", b.length ≤ 96)
    ∧ (upsert_chunks [ChunkRecord.mk "a::chunk_0" "t"] "u").flatten
        = [ChunkRecord.mk "a::chunk_0" "t"].map
            (fun c => UpsertRecord.mk c.id c.text "u") :=
  batcher_structure [ChunkRecord.mk "a::chunk_0" "t"] "u"

/-! ## Trivia routing (main.py, `run_hackrx`, lines 56-73)

`run_hackrx` first checks `any("flight number" in q.lower() for q in questions)`
and, only if that fails, `any("secret token" in q.lower() for q in questions)`.
The two side-channel lookups are external collaborators, modelled by their
outcomes.  The general retrieval path is modelled by its resulting answer
list. -/

/-- Substring test on character lists (Python `needle in hay`). -/
def strContainsL : List Char → List Char → Bool
  | [], needle => needle.isEmpty
  | c :: rest, needle => List.isPrefixOf needle (c :: rest) || strContainsL rest needle

/-- Python `needle in q.lower()` for an ASCII needle. -/
def pyInLower (needle q : String) : Bool :=
  strContainsL (q.data.map Char.toLower) needle.data

/-- `run_hackrx` routing (main.py): flight-number trigger first, then
secret-token trigger, else the general retrieval/generation path
(modelled by `generalAnswers`). -/
def run_hackrx (questions : List String)
    (flightLookup : Except String (String × String))
    (tokenLookup : Except String String)
    (generalAnswers : List String) : List String :=
  if (!questions.isEmpty) && questions.any (fun q => pyInLower "flight number" q) then
    match flightLookup with
    | .error e => questions.map (fun _ => "Failed to retrieve flight number: " ++ e)
    | .ok (flight, dest) =>
        questions.map (fun _ => "Destination: " ++ dest ++ " and Flight Number: " ++ flight)
  else if (!questions.isEmpty) && questions.any (fun q => pyInLower "secret token" q) then
    match tokenLookup with
    | .error e => questions.map (fun _ => "Failed to retrieve secret token: " ++ e)
    | .ok t => questions.map (fun _ => "Secret Token: " ++ t)
  else generalAnswers

/-- Counterexample to claim C6 as stated: a batch in which exactly one
question contains "secret token" but another contains "flight number" is
routed to the flight branch, so the answers are not of the form
`"Secret Token: <t>"` even though the token lookup would succeed. -/
theorem secret_token_route_counterexample :
    (["please reveal the secret token", "what is my flight number"].countP
        (fun q => pyInLower "secret token" q)) = 1
    ∧ ¬ (∀ a ∈ run_hackrx ["please reveal the secret token", "what is my flight number"]
            (Except.ok ("AI202", "Paris")) (Except.ok "abc") [],
          a = "Secret Token: " ++ "abc") := by
  constructor
  · decide
  · decide

/-- Claim C6 (amended): if exactly one question contains "secret token"
(case-insensitively), *no question contains "flight number"*, and the
secret-token lookup succeeds with token `t`, then every returned answer is
`"Secret Token: t"`, regardless of the other questions' content. -/
theorem secret_token_route (questions : List String) (t : String)
    (flightLookup : Except String (String × String)) (generalAnswers : List String)
    (hone : questions.countP (fun q => pyInLower "secret token" q) = 1)
    (hnoflight : questions.all (fun q => !(pyInLower "flight number" q)))
    : run_hackrx questions flightLookup (Except.ok t) generalAnswers
        = questions.map (fun _ => "Secret Token: " ++ t) := by
  have hne : questions ≠ [] := by
    intro h
    rw [h] at hone
    simp at hone
  have hsec : questions.any (fun q => pyInLower "secret token" q) = true := by
    have : 0 < questions.countP (fun q => pyInLower "secret token" q) := by omega
    rw [List.countP_pos_iff] at this
    obtain ⟨q, hq, hpq⟩ := this
    exact List.any_eq_true.mpr ⟨q, hq, hpq⟩
  have hfl : questions.any (fun q => pyInLower "flight number" q) = false := by
    rw [List.all_eq_true] at hnoflight
    rw [List.any_eq_false]
    intro q hq
    have := hnoflight q hq
    simpa using this
  rw [run_hackrx.eq_def]
  rw [hfl, hsec]
  simp [hne]

/-- Witness for the amended C6 at a concrete instantiation. -/
theorem secret_token_route_witness :
    (["give me the secret token please"].countP
        (fun q => pyInLower "secret token" q) = 1)
    ∧ (["give me the secret token please"].all
        (fun q => !(pyInLower "flight number" q)) = true)
    ∧ run_hackrx ["give me the secret token please"]
        (Except.ok ("F", "D")) (Except.ok "xyz") []
        = ["give me the secret token please"].map (fun _ => "Secret Token: " ++ "xyz") :=
  ⟨by decide, by decide,
    secret_token_route ["give me the secret token please"] "xyz"
      (Except.ok ("F", "D")) [] (by decide) (by decide)⟩

/-! ## Email extraction (ingestion.py, `extract_text_file`, `.eml` branch)

The `email` library message is modelled by its content-type/content pairs:
a multipart message yields the parts visited by `msg.walk()`, a singular
message has one body part.  In the multipart branch the code keeps only
parts with `get_content_type() == "text/plain"`; in the singular branch it
appends `msg.get_content()` without any content-type check. -/

structure EmailPart where
  contentType : String
  content : String
deriving DecidableEq

inductive EmailMessage
  | multipart (parts : List EmailPart)
  | singular (body : EmailPart)
deriving DecidableEq

/-- The `.eml` branch of `extract_text_file` (ingestion.py lines 115-125). -/
def extract_text_eml : EmailMessage → String
  | .multipart parts =>
      String.intercalate "\n"
        ((parts.filter (fun p => p.contentType = "text/plain")).map
          (fun p => p.content))
  | .singular body => String.intercalate "\n" [body.content]

/-- Modelled from the claim's words, for comparison: only `text/plain`
parts are kept in *both* the multipart and the singular case. -/
def extract_text_eml_claimed : EmailMessage → String
  | .multipart parts =>
      String.intercalate "\n"
        ((parts.filter (fun p => p.contentType = "text/plain")).map
          (fun p => p.content))
  | .singular body =>
      String.intercalate "\n"
        (([body].filter (fun p => p.contentType = "text/plain")).map
          (fun p => p.content))

/-- Counterexample to claim C8 as stated: a singular (non-multipart) message
whose sole body part is `text/html` has its content included verbatim — the
singular branch performs no content-type check. -/
theorem email_plain_only_counterexample :
    extract_text_eml (.singular ⟨"text/html", "promo"⟩) = "promo"
    ∧ extract_text_eml_claimed (.singular ⟨"text/html", "promo"⟩) = ""
    ∧ extract_text_eml (.singular ⟨"text/html", "promo"⟩)
        ≠ extract_text_eml_claimed (.singular ⟨"text/html", "promo"⟩) := by
  refine ⟨?_, ?_, ?_⟩ <;> simp [extract_text_eml, extract_text_eml_claimed,
    String.intercalate, String.intercalate.go]

/-- Claim C8 (amended): in the multipart case only `text/plain` parts are
extracted, joined by newlines; in the singular case the body content is
returned unconditionally, regardless of its content type. -/
theorem email_extraction (parts : List EmailPart) (body : EmailPart) :
    extract_text_eml (.multipart parts)
      = extract_text_eml_claimed (.multipart parts)
    ∧ extract_text_eml (.singular body) = body.content := by
  constructor
  · rfl
  · simp [extract_text_eml, String.intercalate, String.intercalate.go]

/-- Witness for the amended C8 at a concrete instantiation. -/
theorem email_extraction_witness :
    extract_text_eml (.multipart [⟨"text/plain", "hello"⟩, ⟨"text/html", "x"⟩])
      = extract_text_eml_claimed
          (.multipart [⟨"text/plain", "hello"⟩, ⟨"text/html", "x"⟩])
    ∧ extract_text_eml (.singular ⟨"text/html", "promo"⟩)
        = (EmailPart.mk "text/html" "promo").content :=
  email_extraction [⟨"text/plain", "hello"⟩, ⟨"text/html", "x"⟩]
    ⟨"text/html", "promo"⟩

/-! ## Ingestion pipeline (ingestion.py, `extract_and_embed_chunks`) and
ledger gate (main.py, lines 75-85)

The pipeline's observable behaviour is modelled as the list of events it
performs plus its outcome.  External I/O outcomes are parameters:
`FetchOutcome` is what `download_to_temp` does (fail before creating the
temporary file, fail after creating it but before returning — the
`NamedTemporaryFile(delete=False)` stream loop can raise mid-transfer — or
return the path), and `handlerRes` is the outcome of the selected format
handler (extraction and store errors both surface here). -/

inductive HandlerKind
  | binStub | zipStub | imageOcr | xlsx | pptx | textFile
deriving DecidableEq

inductive PipeErr
  | transport | unsupportedFormat | extraction | store
deriving DecidableEq

inductive IngestEvent
  | probe | tempCreated | ranHandler (k : HandlerKind) | tempRemoved
deriving DecidableEq

inductive FetchOutcome
  | failEarly | failMidWrite | fetched
deriving DecidableEq

def ARCHIVE_EXTS : List String := [".zip"]

def IMAGE_EXTS : List String := [".png", ".jpeg", ".jpg", ".bmp", ".gif"]

def EXCEL_EXTS : List String := [".xlsx"]

def PPTX_EXTS : List String := [".pptx"]

def TEXT_EXTS : List String := [".pdf", ".docx", ".txt", ".eml"]

/-- The dispatch chain of `extract_and_embed_chunks`: the `.bin` check first,
then the `elif` ladder over the extension sets; `none` means the final
`else: raise ValueError(f"Unsupported file type: {ext}")` branch. -/
def dispatch (ext : String) : Option HandlerKind :=
  if ext = ".bin" then some .binStub
  else if ext ∈ ARCHIVE_EXTS then some .zipStub
  else if ext ∈ IMAGE_EXTS then some .imageOcr
  else if ext ∈ EXCEL_EXTS then some .xlsx
  else if ext ∈ PPTX_EXTS then some .pptx
  else if ext ∈ TEXT_EXTS then some .textFile
  else none

/-- All extensions with a handler. -/
def recognizedExts : List String :=
  ".bin" :: (ARCHIVE_EXTS ++ IMAGE_EXTS ++ EXCEL_EXTS ++ PPTX_EXTS ++ TEXT_EXTS)

/-- `extract_and_embed_chunks` (ingestion.py): resolve the extension (the
probe), short-circuit `.bin` before any download, otherwise download to a
temporary file, run the dispatched handler inside `try`, and remove the
temporary file in `finally`.  Returns the performed events and the outcome. -/
def extract_and_embed_chunks (ext : String) (fetch : FetchOutcome)
    (handlerRes : Except PipeErr Unit) : List IngestEvent × Except PipeErr Unit :=
  if ext = ".bin" then ([.probe, .ranHandler .binStub], handlerRes)
  else
    match fetch with
    | .failEarly => ([.probe], .error .transport)
    | .failMidWrite => ([.probe, .tempCreated], .error .transport)
    | .fetched =>
        match dispatch ext with
        | some k => ([.probe, .tempCreated, .ranHandler k, .tempRemoved], handlerRes)
        | none => ([.probe, .tempCreated, .tempRemoved], .error .unsupportedFormat)

/-- The ledger gate of `run_hackrx` (main.py lines 75-85): load the persisted
list, skip ingestion when the locator is already present, otherwise run the
pipeline; append and rewrite the file only after the pipeline succeeds, and
let an error propagate before any write.  Returns the events performed on
this request, the persisted ledger after the request, and the propagated
error if any. -/
def handleDocument (ledger : List String) (url : String)
    (pipeline : List IngestEvent × Except PipeErr Unit) :
    List IngestEvent × List String × Option PipeErr :=
  if url ∈ ledger then ([], ledger, none)
  else
    match pipeline with
    | (evs, .ok _) => (evs, ledger ++ [url], none)
    | (evs, .error e) => (evs, ledger, some e)

lemma dispatch_eq_none_iff (ext : String) :
    dispatch ext = none ↔ ext ∉ recognizedExts := by
  simp only [dispatch, recognizedExts, ARCHIVE_EXTS, IMAGE_EXTS, EXCEL_EXTS,
    PPTX_EXTS, TEXT_EXTS]
  constructor
  · intro h
    split_ifs at h
    simp_all
  · intro h
    simp only [List.mem_cons, List.mem_append] at h
    push_neg at h
    split_ifs <;> simp_all

/-- Claim C3: if the locator is already in the ledger the request performs no
ingestion event at all; and after one fully successful ingestion the locator
is in the persisted ledger, so a second request for the same locator performs
no ingestion event either. -/
theorem ledger_idempotence (ledger : List String) (url : String)
    (pres : List IngestEvent × Except PipeErr Unit) :
    (url ∈ ledger → handleDocument ledger url pres = ([], ledger, none))
    ∧ (url ∉ ledger → pres.2 = Except.ok () →
        handleDocument ledger url pres = (pres.1, ledger ++ [url], none)
        ∧ url ∈ ledger ++ [url]
        ∧ handleDocument (ledger ++ [url]) url pres = ([], ledger ++ [url], none)) := by
  constructor
  · intro h
    simp [handleDocument, h]
  · intro h hok
    obtain ⟨evs, r⟩ := pres
    simp only at hok
    subst hok
    refine ⟨by simp [handleDocument, h], by simp, by simp [handleDocument]⟩

/-- Witness for C3 at a concrete instantiation. -/
theorem ledger_idempotence_witness :
    ("u" ∈ ["u"] → handleDocument ["u"] "u"
        ([IngestEvent.probe], (Except.ok () : Except PipeErr Unit))
        = ([], ["u"], none))
    ∧ ("u" ∉ ["u"] →
        ([IngestEvent.probe], (Except.ok () : Except PipeErr Unit)).2
          = Except.ok () →
        handleDocument ["u"] "u"
            ([IngestEvent.probe], (Except.ok () : Except PipeErr Unit))
          = (([IngestEvent.probe],
              (Except.ok () : Except PipeErr Unit)).1, ["u"] ++ ["u"], none)
        ∧ "u" ∈ ["u"] ++ ["u"]
        ∧ handleDocument (["u"] ++ ["u"]) "u"
            ([IngestEvent.probe], (Except.ok () : Except PipeErr Unit))
            = ([], ["u"] ++ ["u"], none)) :=
  ledger_idempotence ["u"] "u" ([IngestEvent.probe], Except.ok ())

/-- Claim C4: any pipeline error (transport, unsupported format, extraction
or store) for a locator not yet in the ledger propagates, the persisted
ledger is unchanged, and a subsequent request for the same locator runs the
pipeline again. -/
theorem ingestion_error_no_record (ledger : List String) (url ext : String)
    (fetch : FetchOutcome) (hres : Except PipeErr Unit) (e : PipeErr)
    (hnot : url ∉ ledger)
    (herr : (extract_and_embed_chunks ext fetch hres).2 = Except.error e) :
    handleDocument ledger url (extract_and_embed_chunks ext fetch hres)
      = ((extract_and_embed_chunks ext fetch hres).1, ledger, some e)
    ∧ (∀ pres2 : List IngestEvent × Except PipeErr Unit,
        (handleDocument ledger url pres2).1 = pres2.1) := by
  constructor
  · rcases hp : extract_and_embed_chunks ext fetch hres with ⟨evs, r⟩
    rw [hp] at herr
    simp only at herr
    simp [handleDocument, hnot, herr]
  · intro pres2
    obtain ⟨evs2, r2⟩ := pres2
    cases r2 <;> simp [handleDocument, hnot]

/-- Witness for C4 at a concrete instantiation. -/
theorem ingestion_error_no_record_witness :
    ("u" ∉ ([] : List String))
    ∧ (extract_and_embed_chunks ".foo" FetchOutcome.fetched (Except.ok ())).2
        = Except.error PipeErr.unsupportedFormat
    ∧ (handleDocument [] "u" (extract_and_embed_chunks ".foo" FetchOutcome.fetched
          (Except.ok ()))
        = ((extract_and_embed_chunks ".foo" FetchOutcome.fetched (Except.ok ())).1,
            [], some PipeErr.unsupportedFormat)
      ∧ (∀ pres2 : List IngestEvent × Except PipeErr Unit,
          (handleDocument [] "u" pres2).1 = pres2.1)) :=
  ⟨by decide, by rfl,
    ingestion_error_no_record [] "u" ".foo" FetchOutcome.fetched (Except.ok ())
      PipeErr.unsupportedFormat (by decide) (by rfl)⟩

/-- Claim C7: an unrecognized resolved suffix makes the pipeline fail with
the unsupported-format error after running no handler (hence producing no
chunk record and no upsert call) — never a silent empty success; and each of
the thirteen recognized suffixes is dispatched to exactly one handler
class. -/
theorem format_dispatch_total (ext : String) (hres : Except PipeErr Unit)
    (hun : ext ∉ recognizedExts) :
    extract_and_embed_chunks ext FetchOutcome.fetched hres
      = ([IngestEvent.probe, IngestEvent.tempCreated, IngestEvent.tempRemoved],
          Except.error PipeErr.unsupportedFormat)
    ∧ (∀ k, IngestEvent.ranHandler k
        ∉ (extract_and_embed_chunks ext FetchOutcome.fetched hres).1)
    ∧ recognizedExts.map dispatch
        = [some HandlerKind.binStub, some HandlerKind.zipStub,
           some HandlerKind.imageOcr, some HandlerKind.imageOcr,
           some HandlerKind.imageOcr, some HandlerKind.imageOcr,
           some HandlerKind.imageOcr, some HandlerKind.xlsx,
           some HandlerKind.pptx, some HandlerKind.textFile,
           some HandlerKind.textFile, some HandlerKind.textFile,
           some HandlerKind.textFile] := by
  have hbin : ext ≠ ".bin" := by
    intro h
    exact hun (by simp [recognizedExts, h])
  have hdisp : dispatch ext = none := (dispatch_eq_none_iff ext).mpr hun
  have hrun : extract_and_embed_chunks ext FetchOutcome.fetched hres
      = ([IngestEvent.probe, IngestEvent.tempCreated, IngestEvent.tempRemoved],
          Except.error PipeErr.unsupportedFormat) := by
    simp [extract_and_embed_chunks, hbin, hdisp]
  refine ⟨hrun, ?_, by decide⟩
  intro k
  rw [hrun]
  simp

/-- Witness for C7 at a concrete instantiation. -/
theorem format_dispatch_total_witness :
    (".foo" ∉ recognizedExts)
    ∧ (extract_and_embed_chunks ".foo" FetchOutcome.fetched (Except.ok ())
        = ([IngestEvent.probe, IngestEvent.tempCreated, IngestEvent.tempRemoved],
            Except.error PipeErr.unsupportedFormat)
      ∧ (∀ k, IngestEvent.ranHandler k
          ∉ (extract_and_embed_chunks ".foo" FetchOutcome.fetched (Except.ok ())).1)
      ∧ recognizedExts.map dispatch
          = [some HandlerKind.binStub, some HandlerKind.zipStub,
             some HandlerKind.imageOcr, some HandlerKind.imageOcr,
             some HandlerKind.imageOcr, some HandlerKind.imageOcr,
             some HandlerKind.imageOcr, some HandlerKind.xlsx,
             some HandlerKind.pptx, some HandlerKind.textFile,
             some HandlerKind.textFile, some HandlerKind.textFile,
             some HandlerKind.textFile]) :=
  ⟨by decide, format_dispatch_total ".foo" (Except.ok ()) (by decide)⟩

/-- Counterexample to claim C9 as stated: when the transfer fails after
`NamedTemporaryFile(delete=False)` has created the file but before
`download_to_temp` returns (`fetch = failMidWrite`), the pipeline exits with
the temporary file created and never removed — `temp_path` is unassigned in
the caller, so the `finally` block never runs. -/
theorem temp_file_release_counterexample :
    extract_and_embed_chunks ".pdf" FetchOutcome.failMidWrite (Except.ok ())
      = ([IngestEvent.probe, IngestEvent.tempCreated], Except.error PipeErr.transport)
    ∧ IngestEvent.tempCreated
        ∈ (extract_and_embed_chunks ".pdf" FetchOutcome.failMidWrite (Except.ok ())).1
    ∧ IngestEvent.tempRemoved
        ∉ (extract_and_embed_chunks ".pdf" FetchOutcome.failMidWrite (Except.ok ())).1 := by
  refine ⟨by rfl, by decide, by decide⟩

/-- Claim C9 (amended): whenever `download_to_temp` returns (so the transfer
itself did not fail mid-write), every exit path of the pipeline — handler
success, any handler error, and the unsupported-format error — removes the
temporary file; if the transfer fails after creating the file, the file is
not removed. -/
theorem temp_file_release (ext : String) (fetch : FetchOutcome)
    (hres : Except PipeErr Unit) (hmid : fetch ≠ FetchOutcome.failMidWrite) :
    IngestEvent.tempCreated ∈ (extract_and_embed_chunks ext fetch hres).1 →
    IngestEvent.tempRemoved ∈ (extract_and_embed_chunks ext fetch hres).1 := by
  intro hcreated
  by_cases hbin : ext = ".bin"
  · simp [extract_and_embed_chunks, hbin] at hcreated
  · cases fetch with
    | failEarly => simp [extract_and_embed_chunks, hbin] at hcreated
    | failMidWrite => exact absurd rfl hmid
    | fetched =>
        cases hdisp : dispatch ext <;>
          simp [extract_and_embed_chunks, hbin, hdisp]

/-- Witness for the amended C9 at a concrete instantiation. -/
theorem temp_file_release_witness :
    (FetchOutcome.fetched ≠ FetchOutcome.failMidWrite)
    ∧ (IngestEvent.tempCreated
          ∈ (extract_and_embed_chunks ".pdf" FetchOutcome.fetched (Except.ok ())).1 →
        IngestEvent.tempRemoved
          ∈ (extract_and_embed_chunks ".pdf" FetchOutcome.fetched (Except.ok ())).1) :=
  ⟨by decide, temp_file_release ".pdf" FetchOutcome.fetched (Except.ok ()) (by decide)⟩

/-! ## Retriever (retrieval.py, `search_chunks`)

A search hit is modelled by its stored fields relevant to the extraction
loop: the optional `"text"` and `"chunk_text"` attributes
(`fld.get("text")`, `fld.get("chunk_text")`).  Python truthiness makes both
`None` and the empty string falsy in `txt = fld.get("text") or
fld.get("chunk_text")` and in `if txt:`. -/

structure Hit where
  text : Option String
  chunk_text : Option String
deriving DecidableEq

/-- Python truthiness of `fld.get(...)`: `None` and `""` are falsy. -/
def truthyS : Option String → Bool
  | none => false
  | some s => s ≠ ""

/-- Python `a or b` on optional strings. -/
def pyOrStr (a b : Option String) : Option String :=
  if truthyS a then a else b

/-- The hit-processing tail of `search_chunks` (retrieval.py lines 24-35):
early return on no hits, then collect `txt` for each hit when truthy. -/
def search_chunks (hits : List Hit) : List String :=
  if hits.isEmpty then []
  else
    hits.filterMap (fun h =>
      if truthyS (pyOrStr h.text h.chunk_text) then pyOrStr h.text h.chunk_text
      else none)

/-- Modelled from the claim's words, for comparison: the snippet of a hit is
its non-empty `text` value, else its non-empty `chunk_text` value, else
nothing. -/
def snippetClaimed (h : Hit) : Option String :=
  match h.text with
  | some s =>
      if s ≠ "" then some s
      else
        match h.chunk_text with
        | some t => if t ≠ "" then some t else none
        | none => none
  | none =>
      match h.chunk_text with
      | some t => if t ≠ "" then some t else none
      | none => none

lemma search_chunks_hit_eq (h : Hit) :
    (if truthyS (pyOrStr h.text h.chunk_text) then pyOrStr h.text h.chunk_text
     else none) = snippetClaimed h := by
  rcases h with ⟨t, c⟩
  cases t <;> cases c <;>
    simp [pyOrStr, truthyS, snippetClaimed] <;>
    split_ifs <;> simp_all

/-- Claim C10: the retriever returns, in the collaborator's rank order,
exactly the snippets of those hits carrying a non-empty text value under
either field-name convention (`"text"` preferred, `"chunk_text"` as
fallback); hits with neither are dropped, so the result can be shorter than
the hit list; no hits gives the empty list. -/
theorem retriever_snippets (hits : List Hit) :
    search_chunks hits = hits.filterMap snippetClaimed
    ∧ (search_chunks hits).length ≤ hits.length
    ∧ search_chunks [] = [] := by
  have hmain : search_chunks hits = hits.filterMap snippetClaimed := by
    rcases hits with _ | ⟨h, t⟩
    · rfl
    · rw [search_chunks]
      simp only [List.isEmpty_cons, Bool.false_eq_true, if_false]
      exact List.filterMap_congr (fun x _ => search_chunks_hit_eq x)
  refine ⟨hmain, ?_, rfl⟩
  rw [hmain]
  exact List.length_filterMap_le _ _

/-- Witness for C10 at a concrete instantiation. -/
theorem retriever_snippets_witness :
    search_chunks [Hit.mk (some "") (some "s1"), Hit.mk none none]
      = [Hit.mk (some "") (some "s1"), Hit.mk none none].filterMap snippetClaimed
    ∧ (search_chunks [Hit.mk (some "") (some "s1"), Hit.mk none none]).length
        ≤ [Hit.mk (some "") (some "s1"), Hit.mk none none].length
    ∧ search_chunks [] = [] :=
  retriever_snippets [Hit.mk (some "") (some "s1"), Hit.mk none none]

/-! ## Answer Orchestrator (main.py, lines 153-164)

Each question `qs[i]` gets one work unit `get_answer(qs[i])` returning the
pair `(question, stripped answer)`.  The per-question retrieval + generation
composite is an external collaborator, modelled as `answerOf`.  The event
loop completes the launched units in an arbitrary order (a permutation
`order` of the task indices), recording `(taskIndex, result)`;
`asyncio.gather` then reads the results back in task order, which is what
`gatherResults` does.  `answer_texts = [a for (_, a) in results]` keeps only
the answer component. -/

/-- The body of `get_answer`: returns `(q, resp.strip())` with the
retrieval/LLM composite abstracted as `answerOf`. -/
def get_answer (answerOf : String → String) (q : String) : String × String :=
  (q, answerOf q)

/-- The completed work units, in completion order: the unit for task `i`
computes `get_answer` of the `i`-th question. -/
def completeInOrder (qs : List String) (answerOf : String → String)
    (order : List Nat) : List (Nat × (String × String)) :=
  order.map (fun i => (i, get_answer answerOf (qs.getD i "")))

/-- `asyncio.gather`'s result: the completed units read back in task order. -/
def gatherResults (n : Nat) (completed : List (Nat × (String × String))) :
    List (String × String) :=
  (List.range n).map (fun i =>
    match completed.find? (fun p => p.1 == i) with
    | some p => p.2
    | none => ("", ""))

/-- The general answering path of `run_hackrx`: launch all units, let them
complete in `order`, gather in task order, and keep the answer texts. -/
def answerBatch (qs : List String) (answerOf : String → String)
    (order : List Nat) : List String :=
  (gatherResults qs.length (completeInOrder qs answerOf order)).map
    (fun r => r.2)

lemma find_tagged {α : Type} (g : Nat → α) (l : List Nat) (i : Nat)
    (hi : i ∈ l) :
    (l.map (fun j => (j, g j))).find? (fun p => p.1 == i) = some (i, g i) := by
  induction l with
  | nil => cases hi
  | cons j t ih =>
      by_cases hj : j = i
      · subst hj
        simp [List.find?]
      · have hne : (j == i) = false := by simp [hj]
        have hit : i ∈ t := by
          rcases List.mem_cons.mp hi with h | h
          · exact absurd h.symm hj
          · exact h
        simp [List.find?, hne, ih hit]

lemma map_getD_range {α β : Type} (qs : List α) (f : α → β) (d : α) :
    (List.range qs.length).map (fun i => f (qs.getD i d)) = qs.map f := by
  induction qs with
  | nil => rfl
  | cons a t ih =>
      have h1 : (List.range (a :: t).length).map (fun i => f ((a :: t).getD i d))
          = f a :: (List.range t.length).map (fun i => f (t.getD i d)) := by
        rw [List.length_cons, List.range_succ_eq_map, List.map_cons, List.map_map]
        simp [Function.comp, List.getD_cons_zero, List.getD_cons_succ]
      rw [h1, ih, List.map_cons]

/-- Claim C2: for any list of questions and any completion-order permutation
of the concurrently launched work units, the gathered answer list has the
answer for the `i`-th question at position `i` — i.e. it equals the in-order
map of the per-question answer over the questions. -/
theorem answers_preserve_order (qs : List String) (answerOf : String → String)
    (order : List Nat) (hperm : order.Perm (List.range qs.length)) :
    answerBatch qs answerOf order = qs.map answerOf := by
  have hmem : ∀ i, i < qs.length → i ∈ order := by
    intro i hi
    exact (hperm.mem_iff).mpr (List.mem_range.mpr hi)
  rw [answerBatch, gatherResults, completeInOrder]
  have hfind : ∀ i, i < qs.length →
      ((order.map (fun j => (j, get_answer answerOf (qs.getD j "")))).find?
          (fun p => p.1 == i))
        = some (i, get_answer answerOf (qs.getD i "")) := by
    intro i hi
    exact find_tagged (fun j => get_answer answerOf (qs.getD j "")) order i (hmem i hi)
  rw [List.map_map]
  have : ∀ i ∈ List.range qs.length,
      ((fun r => r.2) ∘ fun i =>
        match (order.map (fun j => (j, get_answer answerOf (qs.getD j "")))).find?
            (fun p => p.1 == i) with
        | some p => p.2
        | none => ("", "")) i
      = (fun i => answerOf (qs.getD i "")) i := by
    intro i hi
    have hi2 := List.mem_range.mp hi
    simp only [Function.comp]
    rw [hfind i hi2]
    rfl
  rw [List.map_congr_left this]
  exact map_getD_range qs answerOf ""

/-- Witness for C2 at a concrete instantiation with a non-identity
completion order. -/
theorem answers_preserve_order_witness :
    ([2, 0, 1].Perm (List.range ["a", "b", "c"].length))
    ∧ answerBatch ["a", "b", "c"] (fun q => q ++ "!") [2, 0, 1]
        = ["a", "b", "c"].map (fun q => q ++ "!") :=
  ⟨by decide,
    answers_preserve_order ["a", "b", "c"] (fun q => q ++ "!") [2, 0, 1] (by decide)⟩
